import Mathlib

/-!
# Verification of the topstep-heatmap aggregation core

A shallow embedding of the server's market-aggregation engine
(`server/src/aggregator.ts`, `server/src/index.ts`, `server/src/projectx.ts`)
together with proofs of the specified properties.

JS `number` values carrying prices and volumes are modelled as rationals
(`ℚ`); tick indices, which are always produced by `Math.round`, are integers
(`ℤ`).  A JS `Map<number, number>` is modelled as an association list with
unique keys; `Map.set` is modelled as remove-then-append, which has the same
`get`/`size` semantics as the source map (iteration order is never observed
by the aggregator: only `get`, maxima and minima of keys are).
-/

set_option linter.unusedVariables false

namespace TopstepHeatmap

/-- JS `Math.round`: nearest integer, with halves rounded toward `+∞`,
i.e. the floor of `q + 1/2`. -/
def jsRound (q : ℚ) : ℤ := ⌊q + 1/2⌋

/-- `Map.get`, on the association-list model of a JS `Map`. -/
def mapGet {α β : Type} [BEq α] (m : List (α × β)) (k : α) : Option β :=
  (m.find? (fun p => p.1 == k)).map Prod.snd

/-- `Map.set k v`: drop any binding of `k`, then bind `k ↦ v`. -/
def mapSet {α β : Type} [BEq α] (m : List (α × β)) (k : α) (v : β) : List (α × β) :=
  m.filter (fun p => p.1 != k) ++ [(k, v)]

/-- `Map.delete k`. -/
def mapDelete {α β : Type} [BEq α] (m : List (α × β)) (k : α) : List (α × β) :=
  m.filter (fun p => p.1 != k)

/-- Aggressor side of a trade (`'Buy' | 'Sell' | 'None'` in `aggregator.ts`). -/
inductive Side where
  | Buy
  | Sell
  | None
  deriving DecidableEq, Repr

/-- `TradeData` from `server/src/types.ts`. -/
structure TradeData where
  priceTick : ℤ
  price : ℚ
  volume : ℚ
  side : Side
  timestamp : ℤ
  deriving DecidableEq, Repr

/-- `HeatmapColumn` from `server/src/types.ts`: one emitted snapshot. -/
structure HeatmapColumn where
  t : ℤ
  midTick : ℤ
  bids : List ℚ
  asks : List ℚ
  trades : List TradeData
  deriving DecidableEq, Repr

/-- The aggregation-relevant part of `CONFIG` from `server/src/config.ts`. -/
structure Config where
  BUCKET_MS : ℕ
  PRICE_WINDOW_TICKS : ℕ
  deriving DecidableEq, Repr

/-- `DepthMessage` from `aggregator.ts`.  The ISO `timestamp` string is
modelled directly by its epoch-milliseconds value. -/
structure DepthMessage where
  contractId : String
  domType : ℤ
  price : ℚ
  volume : ℚ
  timestampMs : ℤ
  deriving DecidableEq, Repr

/-- `TradeMessage` from `aggregator.ts`. -/
structure TradeMessage where
  contractId : String
  price : ℚ
  quantity : ℚ
  aggressorSide : ℤ
  timestampMs : ℤ
  deriving DecidableEq, Repr

/-- The mutable state of a `MarketAggregator` instance (`aggregator.ts`).
`intervalId` is modelled by the boolean "a bucket timer is installed". -/
structure MarketAggregator where
  contractId : String
  tickSize : ℚ
  bids : List (ℤ × ℚ)
  asks : List (ℤ × ℚ)
  currentBucketTrades : List TradeData
  intervalId : Bool
  lastMidTick : ℤ
  deriving DecidableEq, Repr

namespace MarketAggregator

/-- The `MarketAggregator` constructor. -/
def mk0 (contractId : String) (tickSize : ℚ) : MarketAggregator :=
  { contractId := contractId
    tickSize := tickSize
    bids := []
    asks := []
    currentBucketTrades := []
    intervalId := false
    lastMidTick := 0 }

/-- `start()`: install the bucket timer; no-op if already running. -/
def start (s : MarketAggregator) : MarketAggregator :=
  if s.intervalId then s else { s with intervalId := true }

/-- `stop()`: clear the bucket timer. -/
def stop (s : MarketAggregator) : MarketAggregator :=
  { s with intervalId := false }

/-- `handleDepth(msg)`: route a depth update to the book by `domType`
(6 reset; 1/3/10 ask; 2/4/9 bid; anything else ignored). -/
def handleDepth (s : MarketAggregator) (msg : DepthMessage) : MarketAggregator :=
  let tick : ℤ := jsRound (msg.price / s.tickSize)
  if msg.domType = 6 then
    { s with bids := [], asks := [] }
  else if msg.domType = 1 ∨ msg.domType = 3 ∨ msg.domType = 10 then
    if msg.volume = 0 then { s with asks := mapDelete s.asks tick }
    else { s with asks := mapSet s.asks tick msg.volume }
  else if msg.domType = 2 ∨ msg.domType = 4 ∨ msg.domType = 9 then
    if msg.volume = 0 then { s with bids := mapDelete s.bids tick }
    else { s with bids := mapSet s.bids tick msg.volume }
  else
    s

/-- The `TradeData` record `handleTrade` builds from a `TradeMessage`. -/
def tradeOfMsg (tickSize : ℚ) (msg : TradeMessage) : TradeData :=
  { priceTick := jsRound (msg.price / tickSize)
    price := msg.price
    volume := msg.quantity
    side := if msg.aggressorSide = 0 then Side.Buy
            else if msg.aggressorSide = 1 then Side.Sell
            else Side.None
    timestamp := msg.timestampMs }

/-- `handleTrade(msg)`: append the converted trade to the bucket buffer. -/
def handleTrade (s : MarketAggregator) (msg : TradeMessage) : MarketAggregator :=
  { s with currentBucketTrades := s.currentBucketTrades ++ [tradeOfMsg s.tickSize msg] }

/-- Best bid: the maximal tick present on the bid side (the `for … if (t > bestBid)`
scan in `bucket()`, with `none` standing for the untouched `-Infinity`). -/
def bestBid (bids : List (ℤ × ℚ)) : Option ℤ :=
  (bids.map Prod.fst).max?

/-- Best ask: the minimal tick present on the ask side (`none` for `Infinity`). -/
def bestAsk (asks : List (ℤ × ℚ)) : Option ℤ :=
  (asks.map Prod.fst).min?

/-- The mid-tick precedence chain of `bucket()` (lines 150–160):
both sides known → rounded midpoint; else last buffered trade; else the
known side; else the carried-forward `lastMidTick`. -/
def resolveMidTick (s : MarketAggregator) : ℤ :=
  match bestBid s.bids, bestAsk s.asks with
  | some b, some a => jsRound (((b : ℚ) + (a : ℚ)) / 2)
  | bb, ba =>
    match s.currentBucketTrades.getLast? with
    | some tr => tr.priceTick
    | none =>
      match bb, ba with
      | some b, _ => b
      | none, some a => a
      | none, none => s.lastMidTick

/-- The `if (midTick === 0 && best… !== ±Infinity) midTick = best…` fallback
(lines 163–164 of `bucket()`). -/
def zeroFallback (mid : ℤ) (best : Option ℤ) : ℤ :=
  if mid = 0 then
    match best with
    | some b => b
    | none => mid
  else mid

/-- The fixed-width window over one book side:
index `i` reads the volume at `startTick + i`, or `0` when absent. -/
def buildWindow (m : List (ℤ × ℚ)) (startTick : ℤ) (w : ℕ) : List ℚ :=
  (List.range w).map (fun i : ℕ => (mapGet m (startTick + (i : ℤ))).getD 0)

/-- `bucket()` (lines 135–204): resolve the mid tick, suppress the column when
it is still `0`, otherwise update `lastMidTick`, build the two windows, drain
the trade buffer and emit the column.  `now` stands for `Date.now()`. -/
def bucket (cfg : Config) (now : ℤ) (s : MarketAggregator) :
    MarketAggregator × Option HeatmapColumn :=
  let m0 := resolveMidTick s
  let m1 := zeroFallback m0 (bestBid s.bids)
  let m2 := zeroFallback m1 (bestAsk s.asks)
  if m2 = 0 then (s, none)
  else
    let midTick := m2
    let w := cfg.PRICE_WINDOW_TICKS
    let halfWindow := w / 2
    let startTick := midTick - (halfWindow : ℤ)
    let col : HeatmapColumn :=
      { t := now
        midTick := midTick
        bids := buildWindow s.bids startTick w
        asks := buildWindow s.asks startTick w
        trades := s.currentBucketTrades }
    ({ s with lastMidTick := midTick, currentBucketTrades := [] }, some col)

/-- The anchor `bucket()` actually uses: the value of its local `midTick`
after the precedence chain and the two zero fallbacks (line 166). -/
def emittedMid (s : MarketAggregator) : ℤ :=
  zeroFallback (zeroFallback (resolveMidTick s) (bestBid s.bids)) (bestAsk s.asks)

end MarketAggregator

/-- `msgs.foldl handleDepth`: a whole sequence of depth updates. -/
def runDepth (s : MarketAggregator) (msgs : List DepthMessage) : MarketAggregator :=
  msgs.foldl MarketAggregator.handleDepth s

/-- The three kinds of happening that touch one aggregator: an upstream depth
update, an upstream trade, and a firing of the bucket timer (`tick now`). -/
inductive MarketEvent where
  | depth (msg : DepthMessage)
  | trade (msg : TradeMessage)
  | tick (now : ℤ)
  deriving DecidableEq, Repr

/-- One aggregator event, returning the emitted columns (zero or one). -/
def stepEvent (cfg : Config) (s : MarketAggregator) :
    MarketEvent → MarketAggregator × List HeatmapColumn
  | .depth m => (s.handleDepth m, [])
  | .trade m => (s.handleTrade m, [])
  | .tick now =>
    match MarketAggregator.bucket cfg now s with
    | (s1, some c) => (s1, [c])
    | (s1, none) => (s1, [])

/-- Run a sequence of aggregator events, collecting all emitted columns. -/
def runEvents (cfg : Config) (s : MarketAggregator) :
    List MarketEvent → MarketAggregator × List HeatmapColumn
  | [] => (s, [])
  | e :: es =>
    let r1 := stepEvent cfg s e
    let r2 := runEvents cfg r1.1 es
    (r2.1, r1.2 ++ r2.2)

/-- The trades carried by a sequence of events, in arrival order, converted
exactly as `handleTrade` converts them. -/
def eventTrades (tickSize : ℚ) (es : List MarketEvent) : List TradeData :=
  es.filterMap (fun e =>
    match e with
    | .trade m => some (MarketAggregator.tradeOfMsg tickSize m)
    | _ => none)

/-- An `ActiveStream` of `index.ts`: the SignalR socket (token plus connected
flag, from `projectx.ts`) and the aggregator, for one contract. -/
structure StreamRec where
  token : String
  socketConnected : Bool
  agg : MarketAggregator
  contractId : String
  deriving DecidableEq, Repr

namespace StreamRec

/-- `await stream.socket.stop(); stream.aggregator.stop()`. -/
def halt (r : StreamRec) : StreamRec :=
  { r with socketConnected := false, agg := r.agg.stop }

/-- `socket.updateToken(newToken)` (`projectx.ts` line 253): replaces the
stored token only; the live connection is not touched. -/
def updateToken (r : StreamRec) (newToken : String) : StreamRec :=
  { r with token := newToken }

end StreamRec

/-- The server's mutable stream state: the `streams` registry
(session id → active stream), with stream instances held in `recs` under a
creation-order identity so that a replaced (deregistered) stream object still
exists and its timer can still be modelled as firing. -/
structure ServerState where
  streams : List (String × ℕ)
  recs : List (ℕ × StreamRec)
  nextId : ℕ
  deriving DecidableEq, Repr

/-- The `POST /stream/start` handler body (`index.ts` lines 158–219): stop and
deregister any prior stream for the session, then register a fresh connected
socket and started aggregator. -/
def streamStart (st : ServerState) (sessionId contractId : String)
    (tickSize : ℚ) (token : String) : ServerState :=
  let st1 :=
    match mapGet st.streams sessionId with
    | some oldId =>
      match mapGet st.recs oldId with
      | some r =>
        { st with recs := mapSet st.recs oldId r.halt
                  streams := mapDelete st.streams sessionId }
      | none => { st with streams := mapDelete st.streams sessionId }
    | none => st
  let r : StreamRec :=
    { token := token
      socketConnected := true
      agg := (MarketAggregator.mk0 contractId tickSize).start
      contractId := contractId }
  { streams := mapSet st1.streams sessionId st.nextId
    recs := mapSet st1.recs st.nextId r
    nextId := st.nextId + 1 }

/-- The `POST /stream/stop` handler body (`index.ts` lines 225–236). -/
def streamStop (st : ServerState) (sessionId : String) : ServerState :=
  match mapGet st.streams sessionId with
  | some id =>
    match mapGet st.recs id with
    | some r =>
      { st with recs := mapSet st.recs id r.halt
                streams := mapDelete st.streams sessionId }
    | none => { st with streams := mapDelete st.streams sessionId }
  | none => st

/-- A firing of stream `id`'s bucket timer.  A cleared interval
(`intervalId = false`) never runs `bucket`, which is exactly what
`clearInterval` guarantees in the single-threaded runtime. -/
def timerFire (cfg : Config) (st : ServerState) (id : ℕ) (now : ℤ) :
    ServerState × List (ℕ × HeatmapColumn) :=
  match mapGet st.recs id with
  | some r =>
    if r.agg.intervalId then
      match MarketAggregator.bucket cfg now r.agg with
      | (a, some c) =>
        ({ st with recs := mapSet st.recs id { r with agg := a } }, [(id, c)])
      | (a, none) =>
        ({ st with recs := mapSet st.recs id { r with agg := a } }, [])
    else (st, [])
  | none => (st, [])

/-- Upstream delivery of a depth message to stream `id`'s socket callback
(`socket.onDepth` wiring in `index.ts`): only a live socket delivers, and the
handler is gated on the contract-id comparison. -/
def deliverDepth (st : ServerState) (id : ℕ) (msg : DepthMessage) : ServerState :=
  match mapGet st.recs id with
  | some r =>
    if r.socketConnected ∧ msg.contractId = r.contractId then
      { st with recs := mapSet st.recs id { r with agg := r.agg.handleDepth msg } }
    else st
  | none => st

/-- Upstream delivery of a trade message (`socket.onTrade` wiring). -/
def deliverTrade (st : ServerState) (id : ℕ) (msg : TradeMessage) : ServerState :=
  match mapGet st.recs id with
  | some r =>
    if r.socketConnected ∧ msg.contractId = r.contractId then
      { st with recs := mapSet st.recs id { r with agg := r.agg.handleTrade msg } }
    else st
  | none => st

/-- Everything that can happen to the server's stream state. -/
inductive SysEvent where
  | start (sessionId contractId : String) (tickSize : ℚ) (token : String)
  | stop (sessionId : String)
  | fire (id : ℕ) (now : ℤ)
  | depth (id : ℕ) (msg : DepthMessage)
  | trade (id : ℕ) (msg : TradeMessage)

/-- One server-level step, returning the columns emitted (tagged by the
emitting stream's identity). -/
def sysStep (cfg : Config) (st : ServerState) :
    SysEvent → ServerState × List (ℕ × HeatmapColumn)
  | .start sess cid ts tok => (streamStart st sess cid ts tok, [])
  | .stop sess => (streamStop st sess, [])
  | .fire id now => timerFire cfg st id now
  | .depth id msg => (deliverDepth st id msg, [])
  | .trade id msg => (deliverTrade st id msg, [])

/-- Run a sequence of server-level events. -/
def runSys (cfg : Config) (st : ServerState) :
    List SysEvent → ServerState × List (ℕ × HeatmapColumn)
  | [] => (st, [])
  | e :: es =>
    let r1 := sysStep cfg st e
    let r2 := runSys cfg r1.1 es
    (r2.1, r1.2 ++ r2.2)

/-- Number of registry entries for a key. -/
def keyCount {α β : Type} [BEq α] (m : List (α × β)) (k : α) : ℕ :=
  (m.filter (fun p => p.1 == k)).length

/-- Effect of one iteration of the token-refresh loop on one stream:
`outcome` is the result of `AuthService.validateAndRefresh` for the stream's
session; on success `socket.updateToken(newToken)`, on failure only a warning
is logged. -/
def refreshStream (outcome : Option String) (r : StreamRec) : StreamRec :=
  match outcome with
  | some t => r.updateToken t
  | none => r

/-- The `for (const [sessionId, stream] of streams.entries())` body of the
50-minute refresh loop, walking the registry. -/
def refreshRecs (outcome : String → Option String) :
    List (String × ℕ) → List (ℕ × StreamRec) → List (ℕ × StreamRec)
  | [], recs => recs
  | p :: rest, recs =>
    let recs1 :=
      match mapGet recs p.2 with
      | some r => mapSet recs p.2 (refreshStream (outcome p.1) r)
      | none => recs
    refreshRecs outcome rest recs1

/-- One full run of the token-refresh interval in `index.ts` (lines 276–287). -/
def refreshCycle (outcome : String → Option String) (st : ServerState) : ServerState :=
  { st with recs := refreshRecs outcome st.streams st.recs }

/-- "The old stream is stopped, and its identity predates the allocation
counter": the inductive invariant behind the never-emits-again guarantee. -/
def retired (oldId : ℕ) (st : ServerState) : Prop :=
  oldId < st.nextId ∧
    ∀ r, mapGet st.recs oldId = some r → r.agg.intervalId = false

/-! ## Concrete states used by witnesses and counterexamples -/

/-- The stream state refuting C2 as stated: best bid −2, best ask 2. -/
def cexC2 : MarketAggregator :=
  { contractId := "c", tickSize := 1, bids := [(-2, 1)], asks := [(2, 1)],
    currentBucketTrades := [], intervalId := true, lastMidTick := 0 }

/-- Witness state for C2: best bid 100 (size 3), best ask 104 (size 2). -/
def wC2 : MarketAggregator :=
  { contractId := "c", tickSize := 1, bids := [(100, 3)], asks := [(104, 2)],
    currentBucketTrades := [], intervalId := true, lastMidTick := 0 }

/-- The stream state refuting C3 as stated: empty book, one buffered trade at
tick 0. -/
def cexC3 : MarketAggregator :=
  { contractId := "c", tickSize := 1, bids := [], asks := [],
    currentBucketTrades := [{ priceTick := 0, price := 0, volume := 1,
                              side := Side.Buy, timestamp := 0 }],
    intervalId := true, lastMidTick := 0 }

/-- Witness state for C3: empty book, one buffered trade at tick 50. -/
def wC3 : MarketAggregator :=
  { contractId := "c", tickSize := 1, bids := [], asks := [],
    currentBucketTrades := [{ priceTick := 50, price := 50, volume := 1,
                              side := Side.Buy, timestamp := 0 }],
    intervalId := true, lastMidTick := 0 }

/-- The stream state refuting C10 as stated: a book genuinely priced around
tick 0 (best bid −3, best ask 3). -/
def cexC10 : MarketAggregator :=
  { contractId := "c", tickSize := 1, bids := [(-3, 1)], asks := [(3, 1)],
    currentBucketTrades := [], intervalId := true, lastMidTick := 0 }

/-- Witness state for C10: best bid 7, nothing else. -/
def wC10 : MarketAggregator :=
  { contractId := "c", tickSize := 1, bids := [(7, 1)], asks := [],
    currentBucketTrades := [], intervalId := true, lastMidTick := 0 }

/-- Second witness state for C10: a single bid level at tick 0 and an empty
ask side — the re-based anchor is bestBid = 0, so emission is still
suppressed even though a book level exists. -/
def wC10zero : MarketAggregator :=
  { contractId := "c", tickSize := 1, bids := [(0, 5)], asks := [],
    currentBucketTrades := [], intervalId := true, lastMidTick := 0 }


/-- Witness state for C4: a single bid at tick 101; mid resolves to 101. -/
def wC4 : MarketAggregator :=
  { contractId := "c", tickSize := 1, bids := [(101, 9)], asks := [],
    currentBucketTrades := [], intervalId := true, lastMidTick := 0 }

/-- Witness depth update for C4: a bid update at price 101, volume 9. -/
def wC4msg : DepthMessage :=
  { contractId := "c", domType := 2, price := 101, volume := 9, timestampMs := 0 }

/-- Witness state for C5: one bid level and one ask level at tick 5. -/
def wC5 : MarketAggregator :=
  { contractId := "c", tickSize := 1, bids := [(5, 2)], asks := [(8, 3)],
    currentBucketTrades := [], intervalId := true, lastMidTick := 0 }

/-- Witness depth update for C5: a bid update at price 5 with volume 0. -/
def wC5msg : DepthMessage :=
  { contractId := "c", domType := 2, price := 5, volume := 0, timestampMs := 0 }

/-- The depth message refuting C6 as stated: an ask update with volume −1. -/
def cexC6msg : DepthMessage :=
  { contractId := "c", domType := 1, price := 0, volume := -1, timestampMs := 0 }

/-- Witness depth update for C6: a bid update with positive volume. -/
def wC6msg : DepthMessage :=
  { contractId := "c", domType := 2, price := 7, volume := 3, timestampMs := 0 }

/-- The book-positivity invariant of the spec's data model: every stored
level has a strictly positive volume. -/
def posBook (s : MarketAggregator) : Prop :=
  (∀ p ∈ s.bids, 0 < p.2) ∧ (∀ p ∈ s.asks, 0 < p.2)

/-- Witness state for C7: one bid level and one buffered trade. -/
def wC7 : MarketAggregator :=
  { contractId := "c", tickSize := 1, bids := [(9, 1)], asks := [],
    currentBucketTrades := [{ priceTick := 9, price := 9, volume := 2,
                              side := Side.Sell, timestamp := 3 }],
    intervalId := true, lastMidTick := 0 }

/-- Witness reset message for C7 (`domType = 6`). -/
def wC7reset : DepthMessage :=
  { contractId := "c", domType := 6, price := 0, volume := 0, timestampMs := 0 }

/-- Witness stream record for C8: a connected, running stream. -/
def wC8rec : StreamRec :=
  { token := "tok"
    socketConnected := true
    agg := { contractId := "c", tickSize := 1, bids := [], asks := [],
             currentBucketTrades := [], intervalId := true, lastMidTick := 0 }
    contractId := "c" }

/-- Witness server state for C8: one session with one running stream. -/
def wC8st : ServerState :=
  { streams := [("alice", 0)], recs := [(0, wC8rec)], nextId := 1 }

/-- Witness stream record for C9: a connected, running stream with a book. -/
def wC9rec : StreamRec :=
  { token := "old"
    socketConnected := true
    agg := { contractId := "c", tickSize := 1, bids := [(5, 2)], asks := [(7, 1)],
             currentBucketTrades := [], intervalId := true, lastMidTick := 6 }
    contractId := "c" }

/-- Witness server state for C9. -/
def wC9st : ServerState :=
  { streams := [("bob", 0)], recs := [(0, wC9rec)], nextId := 1 }

/-- Witness refresh outcome for C9: validation succeeds with a new token. -/
def wC9outcome : String → Option String := fun _ => some "new"

/-! ## Association-list map lemmas -/

theorem mapGet_nil {α β : Type} [BEq α] (k : α) :
    mapGet ([] : List (α × β)) k = none := rfl

theorem mapGet_cons {α β : Type} [BEq α] [LawfulBEq α] [DecidableEq α]
    (p : α × β) (m : List (α × β)) (k : α) :
    mapGet (p :: m) k = if p.1 = k then some p.2 else mapGet m k := by
  by_cases h : p.1 = k <;> simp [mapGet, List.find?_cons, h]

theorem mapGet_filterKeyNe {α β : Type} [BEq α] [LawfulBEq α] [DecidableEq α]
    (m : List (α × β)) (k u : α) :
    mapGet (m.filter (fun p => p.1 != k)) u =
      if u = k then none else mapGet m u := by
  induction m with
  | nil => simp [mapGet_nil]
  | cons p tl ih =>
    by_cases hpk : p.1 = k <;> by_cases huk : u = k <;>
      by_cases hpu : p.1 = u <;>
        simp_all [List.filter_cons, mapGet_cons]

theorem mapGet_mapDelete {α β : Type} [BEq α] [LawfulBEq α] [DecidableEq α]
    (m : List (α × β)) (k u : α) :
    mapGet (mapDelete m k) u = if u = k then none else mapGet m u :=
  mapGet_filterKeyNe m k u

theorem mapGet_append {α β : Type} [BEq α]
    (l1 l2 : List (α × β)) (k : α) :
    mapGet (l1 ++ l2) k =
      match mapGet l1 k with
      | some v => some v
      | none => mapGet l2 k := by
  simp only [mapGet, List.find?_append]
  cases l1.find? (fun p => p.1 == k) <;> simp

theorem mapGet_mapSet {α β : Type} [BEq α] [LawfulBEq α] [DecidableEq α]
    (m : List (α × β)) (k u : α) (v : β) :
    mapGet (mapSet m k v) u = if u = k then some v else mapGet m u := by
  rw [mapSet, mapGet_append, mapGet_filterKeyNe]
  by_cases h : u = k
  · simp [h, mapGet_cons]
  · have hk : k ≠ u := fun hh => h hh.symm
    simp only [h, if_false, mapGet_cons, hk, mapGet_nil]
    cases mapGet m u <;> rfl

theorem mapDelete_length_of_mem {α β : Type} [BEq α] [LawfulBEq α] [DecidableEq α]
    (m : List (α × β)) (k : α) (hnd : (m.map Prod.fst).Nodup)
    (v : β) (h : mapGet m k = some v) :
    (mapDelete m k).length + 1 = m.length := by
  induction m with
  | nil => simp [mapGet_nil] at h
  | cons p tl ih =>
    simp only [List.map_cons, List.nodup_cons] at hnd
    rw [mapGet_cons] at h
    by_cases hpk : p.1 = k
    · have hfix : mapDelete (p :: tl) k = tl := by
        simp only [mapDelete, List.filter_cons, hpk, bne_self_eq_false]
        have hall : ∀ q ∈ tl, (q.1 != k) = true := by
          intro q hq
          have hne : q.1 ≠ k := fun hqk =>
            hnd.1 (hpk ▸ hqk ▸ List.mem_map_of_mem Prod.fst hq)
          simpa using hne
        exact List.filter_eq_self.mpr hall
      simp [hfix]
    · simp only [hpk, if_false] at h
      have hstep : mapDelete (p :: tl) k = p :: mapDelete tl k := by
        simp [mapDelete, List.filter_cons, hpk]
      rw [hstep]
      simp only [List.length_cons]
      rw [ih hnd.2 h]

theorem mapDelete_key_not_mem {α β : Type} [BEq α] [LawfulBEq α]
    (m : List (α × β)) (k : α) :
    k ∉ (mapDelete m k).map Prod.fst := by
  intro hk
  rcases List.mem_map.mp hk with ⟨p, hp, hpk⟩
  rcases List.mem_filter.mp hp with ⟨_, hne⟩
  simp [hpk] at hne

theorem bestBid_mem (bids : List (ℤ × ℚ)) (b : ℤ)
    (h : MarketAggregator.bestBid bids = some b) :
    b ∈ bids.map Prod.fst :=
  List.max?_mem (fun _ _ => max_choice _ _) h

theorem bestAsk_mem (asks : List (ℤ × ℚ)) (a : ℤ)
    (h : MarketAggregator.bestAsk asks = some a) :
    a ∈ asks.map Prod.fst :=
  List.min?_mem (fun _ _ => min_choice _ _) h

/-! ## Bucket characterization -/

open MarketAggregator in
/-- `bucket` as one conditional: suppress on a zero anchor, otherwise emit the
column built from the pre-drain state. -/
theorem bucket_eq (cfg : Config) (now : ℤ) (s : MarketAggregator) :
    MarketAggregator.bucket cfg now s =
      if emittedMid s = 0 then (s, none)
      else
        ({ s with lastMidTick := emittedMid s, currentBucketTrades := [] },
          some { t := now
                 midTick := emittedMid s
                 bids := buildWindow s.bids
                   (emittedMid s - (cfg.PRICE_WINDOW_TICKS / 2 : ℕ)) cfg.PRICE_WINDOW_TICKS
                 asks := buildWindow s.asks
                   (emittedMid s - (cfg.PRICE_WINDOW_TICKS / 2 : ℕ)) cfg.PRICE_WINDOW_TICKS
                 trades := s.currentBucketTrades }) := rfl

open MarketAggregator in
theorem zeroFallback_of_ne (mid : ℤ) (best : Option ℤ) (h : mid ≠ 0) :
    zeroFallback mid best = mid := by
  simp [zeroFallback, h]

open MarketAggregator in
theorem resolveMidTick_both (s : MarketAggregator) (b a : ℤ)
    (hb : bestBid s.bids = some b) (ha : bestAsk s.asks = some a) :
    resolveMidTick s = jsRound (((b : ℚ) + (a : ℚ)) / 2) := by
  simp [resolveMidTick, hb, ha]

/-! ## C1 -/

open MarketAggregator in
/-- C1: with no bid levels, no ask levels, an empty trade buffer and
`lastMidTick` still unset (0), `bucket()` emits no snapshot and returns the
stream state unchanged. -/
theorem C1_empty_stream_no_emission (cfg : Config) (now : ℤ) (s : MarketAggregator)
    (hb : s.bids = []) (ha : s.asks = []) (ht : s.currentBucketTrades = [])
    (hm : s.lastMidTick = 0) :
    MarketAggregator.bucket cfg now s = (s, none) := by
  have hres : resolveMidTick s = 0 := by
    simp [resolveMidTick, bestBid, bestAsk, hb, ha, ht, hm]
  rw [bucket_eq]
  simp [emittedMid, hres, bestBid, bestAsk, hb, ha, zeroFallback]

/-- Witness for C1: a freshly constructed aggregator (ES contract, quarter
ticks) emits nothing on its first bucket and is left unchanged. -/
theorem C1_witness :
    MarketAggregator.bucket ⟨100, 200⟩ 1700000000000
        (MarketAggregator.mk0 "CON.F.US.EP.U25" (25/100))
      = (MarketAggregator.mk0 "CON.F.US.EP.U25" (25/100), none) :=
  C1_empty_stream_no_emission _ _ _ rfl rfl rfl rfl

/-! ## C2 -/

open MarketAggregator in
/-- C2 (amended): when both a best bid and a best ask are present and the
rounded midpoint is not the zero sentinel, the emitted column's anchor is
`round((bestBid + bestAsk) / 2)`. -/
theorem C2_mid_is_rounded_midpoint (cfg : Config) (now : ℤ) (s : MarketAggregator)
    (b a : ℤ) (hb : bestBid s.bids = some b) (ha : bestAsk s.asks = some a)
    (hnz : jsRound (((b : ℚ) + (a : ℚ)) / 2) ≠ 0) :
    ∃ col, (MarketAggregator.bucket cfg now s).2 = some col ∧
      col.midTick = jsRound (((b : ℚ) + (a : ℚ)) / 2) := by
  have hres := resolveMidTick_both s b a hb ha
  have hmid : emittedMid s = jsRound (((b : ℚ) + (a : ℚ)) / 2) := by
    rw [emittedMid, hres, zeroFallback_of_ne _ _ hnz, zeroFallback_of_ne _ _ hnz]
  rw [bucket_eq]
  simp only [hmid, hnz, if_false]
  exact ⟨_, rfl, rfl⟩

open MarketAggregator in
/-- C2 counterexample: with bestBid = −2 and bestAsk = 2 both present, the
rounded midpoint is 0, yet the emitted snapshot is anchored at −2 — not at
`round((bestBid + bestAsk) / 2)`. -/
theorem C2_counterexample :
    bestBid cexC2.bids = some (-2) ∧
    bestAsk cexC2.asks = some 2 ∧
    jsRound ((((-2 : ℤ) : ℚ) + ((2 : ℤ) : ℚ)) / 2) = 0 ∧
    (MarketAggregator.bucket ⟨100, 4⟩ 0 cexC2).2.map HeatmapColumn.midTick
      = some (-2) := by
  have hres : resolveMidTick cexC2 = 0 := by
    have h0 : resolveMidTick cexC2 = jsRound ((((-2 : ℤ) : ℚ) + ((2 : ℤ) : ℚ)) / 2) := rfl
    rw [h0]; norm_num [jsRound]
  have hmid : emittedMid cexC2 = -2 := by
    rw [emittedMid, hres]; rfl
  refine ⟨rfl, rfl, ?_, ?_⟩
  · norm_num [jsRound]
  · rw [bucket_eq]
    simp [hmid]

/-- Witness for C2: with bestBid = 100 and bestAsk = 104 the emitted anchor is
`round((100 + 104) / 2) = 102`. -/
theorem C2_witness :
    jsRound ((((100 : ℤ) : ℚ) + ((104 : ℤ) : ℚ)) / 2) = 102 ∧
    ∃ col, (MarketAggregator.bucket ⟨100, 4⟩ 0 wC2).2 = some col ∧
      col.midTick = jsRound ((((100 : ℤ) : ℚ) + ((104 : ℤ) : ℚ)) / 2) :=
  ⟨by norm_num [jsRound],
   C2_mid_is_rounded_midpoint ⟨100, 4⟩ 0 wC2 100 104 rfl rfl (by norm_num [jsRound])⟩

/-! ## C3 -/

open MarketAggregator in
/-- C3 (amended): when best bid and best ask are not both known, the trade
buffer is non-empty and the most recent trade's tick is nonzero, `bucket()`
emits a snapshot anchored at that trade's tick. -/
theorem C3_mid_falls_back_to_last_trade (cfg : Config) (now : ℤ)
    (s : MarketAggregator) (tr : TradeData)
    (hnb : bestBid s.bids = none ∨ bestAsk s.asks = none)
    (hlast : s.currentBucketTrades.getLast? = some tr)
    (hnz : tr.priceTick ≠ 0) :
    ∃ col, (MarketAggregator.bucket cfg now s).2 = some col ∧
      col.midTick = tr.priceTick := by
  have hres : resolveMidTick s = tr.priceTick := by
    rcases hbb : bestBid s.bids with _ | b <;>
      rcases hba : bestAsk s.asks with _ | a <;>
        simp_all [resolveMidTick, hlast]
  have hmid : emittedMid s = tr.priceTick := by
    rw [emittedMid, hres, zeroFallback_of_ne _ _ hnz, zeroFallback_of_ne _ _ hnz]
  rw [bucket_eq]
  simp only [hmid, hnz, if_false]
  exact ⟨_, rfl, rfl⟩

open MarketAggregator in
/-- C3 counterexample: with an empty book and one buffered trade at tick 0
(`priceTick = 0`), `bucket()` emits no snapshot at all — the "for any tick
value of that trade" part of the claim fails. -/
theorem C3_counterexample :
    bestBid cexC3.bids = none ∧ bestAsk cexC3.asks = none ∧
    cexC3.currentBucketTrades.getLast? =
      some { priceTick := 0, price := 0, volume := 1,
             side := Side.Buy, timestamp := 0 } ∧
    (MarketAggregator.bucket ⟨100, 4⟩ 0 cexC3).2 = none := by
  refine ⟨rfl, rfl, rfl, ?_⟩
  rw [bucket_eq]
  rfl

/-- Witness for C3: empty book plus one buffered trade at tick 50 gives an
emitted snapshot anchored at 50. -/
theorem C3_witness :
    ∃ col, (MarketAggregator.bucket ⟨100, 4⟩ 0 wC3).2 = some col ∧
      col.midTick = (50 : ℤ) :=
  C3_mid_falls_back_to_last_trade ⟨100, 4⟩ 0 wC3
    { priceTick := 50, price := 50, volume := 1, side := Side.Buy, timestamp := 0 }
    (Or.inl rfl) rfl (by norm_num)

/-! ## C10 -/

open MarketAggregator in
/-- C10 (amended): every emitted snapshot has a nonzero anchor, so tick 0
never appears as a column anchor.  But a resolved mid of 0 does not by itself
suppress emission: the anchor is first re-based through the best-bid and
best-ask fallbacks (`emittedMid`), and the bucket is suppressed — with the
state unchanged — exactly when that re-based anchor is still 0; otherwise a
snapshot is emitted at it.  (So −3/3 emits at −3, while a lone bid level at
tick 0 still suppresses.) -/
theorem C10_emitted_anchor_nonzero (cfg : Config) (now : ℤ) (s : MarketAggregator) :
    (∀ s' col, MarketAggregator.bucket cfg now s = (s', some col) → col.midTick ≠ 0) ∧
    (emittedMid s = 0 → MarketAggregator.bucket cfg now s = (s, none)) ∧
    (emittedMid s ≠ 0 →
      ∃ col, (MarketAggregator.bucket cfg now s).2 = some col ∧
        col.midTick = emittedMid s) := by
  refine ⟨?_, ?_, ?_⟩
  · intro s' col h
    rw [bucket_eq] at h
    by_cases hz : emittedMid s = 0
    · simp [hz] at h
    · simp only [hz, if_false] at h
      have hcol := congrArg Prod.snd h
      simp only at hcol
      cases Option.some.inj hcol
      exact hz
  · intro h0
    rw [bucket_eq]
    simp [h0]
  · intro h0
    rw [bucket_eq]
    simp only [h0, if_false]
    exact ⟨_, rfl, rfl⟩

open MarketAggregator in
open MarketAggregator in
/-- C10 counterexample: best bid −3 / best ask 3 resolves the mid to 0, yet a
snapshot IS emitted (re-anchored at the best bid −3), refuting "if the
resolved midTick is 0 … no snapshot is emitted". -/
theorem C10_counterexample :
    resolveMidTick cexC10 = 0 ∧
    (MarketAggregator.bucket ⟨100, 4⟩ 0 cexC10).2.map HeatmapColumn.midTick
      = some (-3) := by
  have hres : resolveMidTick cexC10 = 0 := by
    have h0 : resolveMidTick cexC10 = jsRound ((((-3 : ℤ) : ℚ) + ((3 : ℤ) : ℚ)) / 2) := rfl
    rw [h0]; norm_num [jsRound]
  have hmid : emittedMid cexC10 = -3 := by
    rw [emittedMid, hres]; rfl
  refine ⟨hres, ?_⟩
  rw [bucket_eq]
  simp [hmid]

/-- Witness for C10: a lone bid at tick 7 emits a snapshot with a nonzero
anchor, while a lone bid at tick 0 (re-based anchor still 0) is suppressed
with the state unchanged. -/
theorem C10_witness :
    (∃ s' col, MarketAggregator.bucket ⟨100, 4⟩ 0 wC10 = (s', some col) ∧
      col.midTick ≠ 0) ∧
    MarketAggregator.bucket ⟨100, 4⟩ 0 wC10zero = (wC10zero, none) := by
  constructor
  · refine ⟨_, _, rfl, ?_⟩
    exact (C10_emitted_anchor_nonzero ⟨100, 4⟩ 0 wC10).1 _ _ rfl
  · exact (C10_emitted_anchor_nonzero ⟨100, 4⟩ 0 wC10zero).2.1 rfl

/-! ## Window lemmas -/

open MarketAggregator in
theorem buildWindow_length (m : List (ℤ × ℚ)) (st : ℤ) (w : ℕ) :
    (buildWindow m st w).length = w := by
  rw [buildWindow, List.length_map, List.length_range]

open MarketAggregator in
theorem buildWindow_getD (m : List (ℤ × ℚ)) (st : ℤ) (w : ℕ) (i : ℕ) (h : i < w) :
    (buildWindow m st w).getD i 0 = (mapGet m (st + (i : ℤ))).getD 0 := by
  rw [buildWindow, List.getD_eq_getElem?_getD, List.getElem?_map]
  rw [List.getElem?_range h]
  rfl

/-! ## handleDepth shape lemmas -/

open MarketAggregator in
/-- `handleDepth` on a bid-type message updates exactly the bid side. -/
theorem handleDepth_bid (s : MarketAggregator) (msg : DepthMessage)
    (hdom : msg.domType = 2 ∨ msg.domType = 4 ∨ msg.domType = 9) :
    s.handleDepth msg =
      if msg.volume = 0 then
        { s with bids := mapDelete s.bids (jsRound (msg.price / s.tickSize)) }
      else
        { s with bids := mapSet s.bids (jsRound (msg.price / s.tickSize)) msg.volume } := by
  have hne6 : ¬ msg.domType = 6 := by rcases hdom with h | h | h <;> simp [h]
  have hneA : ¬ (msg.domType = 1 ∨ msg.domType = 3 ∨ msg.domType = 10) := by
    rcases hdom with h | h | h <;> simp [h]
  rw [MarketAggregator.handleDepth]
  rw [if_neg hne6, if_neg hneA, if_pos hdom]

open MarketAggregator in
/-- `handleDepth` on an ask-type message updates exactly the ask side. -/
theorem handleDepth_ask (s : MarketAggregator) (msg : DepthMessage)
    (hdom : msg.domType = 1 ∨ msg.domType = 3 ∨ msg.domType = 10) :
    s.handleDepth msg =
      if msg.volume = 0 then
        { s with asks := mapDelete s.asks (jsRound (msg.price / s.tickSize)) }
      else
        { s with asks := mapSet s.asks (jsRound (msg.price / s.tickSize)) msg.volume } := by
  have hne6 : ¬ msg.domType = 6 := by rcases hdom with h | h | h <;> simp [h]
  rw [MarketAggregator.handleDepth]
  rw [if_neg hne6, if_pos hdom]

open MarketAggregator in
/-- `handleDepth` on a reset message clears both sides and nothing else. -/
theorem handleDepth_reset (s : MarketAggregator) (msg : DepthMessage)
    (h : msg.domType = 6) :
    s.handleDepth msg = { s with bids := [], asks := [] } := by
  rw [MarketAggregator.handleDepth]
  rw [if_pos h]

open MarketAggregator in
/-- `handleDepth` ignores all other `domType`s. -/
theorem handleDepth_other (s : MarketAggregator) (msg : DepthMessage)
    (h6 : ¬ msg.domType = 6)
    (hA : ¬ (msg.domType = 1 ∨ msg.domType = 3 ∨ msg.domType = 10))
    (hB : ¬ (msg.domType = 2 ∨ msg.domType = 4 ∨ msg.domType = 9)) :
    s.handleDepth msg = s := by
  rw [MarketAggregator.handleDepth]
  rw [if_neg h6, if_neg hA, if_neg hB]

open MarketAggregator in
theorem bestBid_mapDelete_ne (m : List (ℤ × ℚ)) (t : ℤ) :
    bestBid (mapDelete m t) ≠ some t := fun h =>
  mapDelete_key_not_mem m t (bestBid_mem _ _ h)

open MarketAggregator in
theorem bestAsk_mapDelete_ne (m : List (ℤ × ℚ)) (t : ℤ) :
    bestAsk (mapDelete m t) ≠ some t := fun h =>
  mapDelete_key_not_mem m t (bestAsk_mem _ _ h)

/-! ## C4 -/

open MarketAggregator in
/-- C4: every emitted snapshot carries bid/ask arrays of length exactly `W`,
slot `i` reading the stored volume at tick `midTick − ⌊W/2⌋ + i` (0 when the
tick is absent); and a bid depth update at tick `T` makes the book at `T`
read the written volume (`none`, hence window 0, after a volume-0 update). -/
theorem C4_window_shape (cfg : Config) (now : ℤ) :
    (∀ s s' col, MarketAggregator.bucket cfg now s = (s', some col) →
      col.bids.length = cfg.PRICE_WINDOW_TICKS ∧
      col.asks.length = cfg.PRICE_WINDOW_TICKS ∧
      ∀ i : ℕ, i < cfg.PRICE_WINDOW_TICKS →
        col.bids.getD i 0 =
          (mapGet s.bids (col.midTick - ((cfg.PRICE_WINDOW_TICKS / 2 : ℕ) : ℤ) + (i : ℤ))).getD 0 ∧
        col.asks.getD i 0 =
          (mapGet s.asks (col.midTick - ((cfg.PRICE_WINDOW_TICKS / 2 : ℕ) : ℤ) + (i : ℤ))).getD 0) ∧
    (∀ (s : MarketAggregator) (msg : DepthMessage),
      (msg.domType = 2 ∨ msg.domType = 4 ∨ msg.domType = 9) →
      mapGet (s.handleDepth msg).bids (jsRound (msg.price / s.tickSize)) =
        (if msg.volume = 0 then none else some msg.volume)) := by
  constructor
  · intro s s' col h
    rw [bucket_eq] at h
    by_cases hz : emittedMid s = 0
    · simp [hz] at h
    · simp only [hz, if_false] at h
      have hcol := congrArg Prod.snd h
      simp only at hcol
      cases Option.some.inj hcol
      refine ⟨buildWindow_length .., buildWindow_length .., ?_⟩
      intro i hi
      exact ⟨buildWindow_getD _ _ _ i hi, buildWindow_getD _ _ _ i hi⟩
  · intro s msg hdom
    rw [handleDepth_bid s msg hdom]
    by_cases hv : msg.volume = 0
    · simp [hv, mapGet_mapDelete]
    · simp [hv, mapGet_mapSet]

/-- Witness for C4: at a concrete state (one bid at tick 101, `W = 4`) the
emitted window has length 4 on both sides and slot 2 reads the book at
`midTick − 2 + 2`; and a concrete bid write is readable back. -/
theorem C4_witness :
    ∃ s' col, MarketAggregator.bucket ⟨100, 4⟩ 0 wC4 = (s', some col) ∧
      col.bids.length = 4 ∧ col.asks.length = 4 ∧
      col.bids.getD 2 0 = (mapGet wC4.bids (col.midTick - 2 + ((2 : ℕ) : ℤ))).getD 0 ∧
      mapGet (wC4.handleDepth wC4msg).bids (jsRound (wC4msg.price / wC4.tickSize))
        = some 9 := by
  refine ⟨_, _, rfl, ?_, ?_, ?_, ?_⟩
  · exact ((C4_window_shape ⟨100, 4⟩ 0).1 wC4 _ _ rfl).1
  · exact ((C4_window_shape ⟨100, 4⟩ 0).1 wC4 _ _ rfl).2.1
  · exact (((C4_window_shape ⟨100, 4⟩ 0).1 wC4 _ _ rfl).2.2 2 (by decide)).1
  · have h := (C4_window_shape ⟨100, 4⟩ 0).2 wC4 wC4msg (Or.inl rfl)
    simpa [wC4msg] using h

/-! ## C5 -/

open MarketAggregator in
/-- C5: a volume-0 depth update removes the tick from its side's mapping
(no-op when absent) and leaves the other side alone — afterwards that side's
best never returns the tick, and the side shrinks by exactly one entry when
the tick was present; a nonzero-volume update overwrites the tick's entry. -/
theorem C5_depth_update_semantics (s : MarketAggregator) (msg : DepthMessage)
    (t : ℤ) (ht : t = jsRound (msg.price / s.tickSize)) :
    ((msg.domType = 2 ∨ msg.domType = 4 ∨ msg.domType = 9) →
      (msg.volume = 0 →
        (∀ u, mapGet (s.handleDepth msg).bids u =
            if u = t then none else mapGet s.bids u) ∧
        (s.handleDepth msg).asks = s.asks ∧
        bestBid (s.handleDepth msg).bids ≠ some t ∧
        ((s.bids.map Prod.fst).Nodup → ∀ v, mapGet s.bids t = some v →
          (s.handleDepth msg).bids.length + 1 = s.bids.length)) ∧
      (msg.volume ≠ 0 →
        ∀ u, mapGet (s.handleDepth msg).bids u =
          if u = t then some msg.volume else mapGet s.bids u)) ∧
    ((msg.domType = 1 ∨ msg.domType = 3 ∨ msg.domType = 10) →
      (msg.volume = 0 →
        (∀ u, mapGet (s.handleDepth msg).asks u =
            if u = t then none else mapGet s.asks u) ∧
        (s.handleDepth msg).bids = s.bids ∧
        bestAsk (s.handleDepth msg).asks ≠ some t ∧
        ((s.asks.map Prod.fst).Nodup → ∀ v, mapGet s.asks t = some v →
          (s.handleDepth msg).asks.length + 1 = s.asks.length)) ∧
      (msg.volume ≠ 0 →
        ∀ u, mapGet (s.handleDepth msg).asks u =
          if u = t then some msg.volume else mapGet s.asks u)) := by
  subst ht
  constructor
  · intro hdom
    rw [handleDepth_bid s msg hdom]
    constructor
    · intro hv
      rw [if_pos hv]
      exact ⟨fun u => mapGet_mapDelete _ _ _, rfl, bestBid_mapDelete_ne _ _,
             fun hnd v hvv => mapDelete_length_of_mem _ _ hnd v hvv⟩
    · intro hv
      rw [if_neg hv]
      exact fun u => mapGet_mapSet _ _ _ _
  · intro hdom
    rw [handleDepth_ask s msg hdom]
    constructor
    · intro hv
      rw [if_pos hv]
      exact ⟨fun u => mapGet_mapDelete _ _ _, rfl, bestAsk_mapDelete_ne _ _,
             fun hnd v hvv => mapDelete_length_of_mem _ _ hnd v hvv⟩
    · intro hv
      rw [if_neg hv]
      exact fun u => mapGet_mapSet _ _ _ _

open MarketAggregator in
/-- Witness for C5: deleting the bid at tick 5 from a one-level bid side
leaves `mapGet = none`, a best bid different from 5, and one entry fewer. -/
theorem C5_witness :
    mapGet (wC5.handleDepth wC5msg).bids 5 = none ∧
    bestBid (wC5.handleDepth wC5msg).bids ≠ some 5 ∧
    (wC5.handleDepth wC5msg).bids.length + 1 = wC5.bids.length := by
  have h := C5_depth_update_semantics wC5 wC5msg 5 (by norm_num [jsRound, wC5msg, wC5])
  have hb := (h.1 (Or.inl rfl)).1 rfl
  exact ⟨by simpa using hb.1 5, hb.2.2.1, hb.2.2.2 (by decide) 2 rfl⟩

/-! ## C6 -/

open MarketAggregator in
/-- `handleDepth` preserves book positivity when the update's volume is
non-negative. -/
theorem posBook_handleDepth (s : MarketAggregator) (msg : DepthMessage)
    (hpos : posBook s) (hv : 0 ≤ msg.volume) : posBook (s.handleDepth msg) := by
  by_cases h6 : msg.domType = 6
  · rw [handleDepth_reset s msg h6]
    exact ⟨by simp, by simp⟩
  by_cases hA : msg.domType = 1 ∨ msg.domType = 3 ∨ msg.domType = 10
  · rw [handleDepth_ask s msg hA]
    by_cases hz : msg.volume = 0
    · rw [if_pos hz]
      exact ⟨hpos.1, fun p hp => hpos.2 p (List.mem_of_mem_filter hp)⟩
    · rw [if_neg hz]
      refine ⟨hpos.1, fun p hp => ?_⟩
      rcases List.mem_append.mp hp with h | h
      · exact hpos.2 p (List.mem_of_mem_filter h)
      · rcases List.mem_singleton.mp h with rfl
        exact lt_of_le_of_ne hv (Ne.symm hz)
  by_cases hB : msg.domType = 2 ∨ msg.domType = 4 ∨ msg.domType = 9
  · rw [handleDepth_bid s msg hB]
    by_cases hz : msg.volume = 0
    · rw [if_pos hz]
      exact ⟨fun p hp => hpos.1 p (List.mem_of_mem_filter hp), hpos.2⟩
    · rw [if_neg hz]
      refine ⟨fun p hp => ?_, hpos.2⟩
      rcases List.mem_append.mp hp with h | h
      · exact hpos.1 p (List.mem_of_mem_filter h)
      · rcases List.mem_singleton.mp h with rfl
        exact lt_of_le_of_ne hv (Ne.symm hz)
  · rw [handleDepth_other s msg h6 hA hB]
    exact hpos

open MarketAggregator in
/-- Book positivity is preserved by any non-negative-volume update sequence. -/
theorem posBook_runDepth (s : MarketAggregator) (msgs : List DepthMessage)
    (hpos : posBook s) (hv : ∀ m ∈ msgs, 0 ≤ m.volume) :
    posBook (runDepth s msgs) := by
  induction msgs generalizing s with
  | nil => exact hpos
  | cons m ms ih =>
    have h1 : runDepth s (m :: ms) = runDepth (s.handleDepth m) ms := rfl
    rw [h1]
    exact ih (s.handleDepth m)
      (posBook_handleDepth s m hpos (hv m (List.mem_cons_self _ _)))
      (fun x hx => hv x (List.mem_cons_of_mem _ hx))

open MarketAggregator in
/-- C6 (amended): starting from a fresh aggregator, after any sequence of
depth updates whose volumes are all non-negative, no tick is present in the
bids or asks mapping with a non-positive volume. -/
theorem C6_book_positive (contractId : String) (tickSize : ℚ)
    (msgs : List DepthMessage) (hv : ∀ m ∈ msgs, 0 ≤ m.volume) :
    (∀ p ∈ (runDepth (MarketAggregator.mk0 contractId tickSize) msgs).bids, 0 < p.2) ∧
    (∀ p ∈ (runDepth (MarketAggregator.mk0 contractId tickSize) msgs).asks, 0 < p.2) :=
  posBook_runDepth _ msgs ⟨by simp [MarketAggregator.mk0], by simp [MarketAggregator.mk0]⟩ hv

open MarketAggregator in
/-- C6 counterexample: the code stores negative volumes — after a single ask
update with volume −1 the ask mapping holds tick 0 with the non-positive
volume −1, refuting the claim for arbitrary volume values. -/
theorem C6_counterexample :
    ((0 : ℤ), (-1 : ℚ)) ∈ (runDepth (MarketAggregator.mk0 "c" 1) [cexC6msg]).asks ∧
    ((-1 : ℚ) ≤ 0) := by
  have hrun : runDepth (MarketAggregator.mk0 "c" 1) [cexC6msg]
      = (MarketAggregator.mk0 "c" 1).handleDepth cexC6msg := rfl
  have hshape := handleDepth_ask (MarketAggregator.mk0 "c" 1) cexC6msg (Or.inl rfl)
  have hvne : ¬ cexC6msg.volume = 0 := by norm_num [cexC6msg]
  have ht : jsRound (cexC6msg.price / (MarketAggregator.mk0 "c" 1).tickSize) = 0 := by
    norm_num [jsRound, cexC6msg, MarketAggregator.mk0]
  rw [if_neg hvne] at hshape
  constructor
  · rw [hrun, hshape]
    simp [mapSet, MarketAggregator.mk0, cexC6msg]
    norm_num [jsRound]
  · norm_num

/-- Witness for C6: one positive bid update leaves a book whose every entry
is positive. -/
theorem C6_witness :
    (∀ p ∈ (runDepth (MarketAggregator.mk0 "ES" 1) [wC6msg]).bids, 0 < p.2) ∧
    (∀ p ∈ (runDepth (MarketAggregator.mk0 "ES" 1) [wC6msg]).asks, 0 < p.2) :=
  C6_book_positive "ES" 1 [wC6msg] (by
    intro m hm
    rcases List.mem_singleton.mp hm with rfl
    norm_num [wC6msg])

/-! ## Frame lemmas for the event trace -/

open MarketAggregator in
theorem handleDepth_frame (s : MarketAggregator) (msg : DepthMessage) :
    (s.handleDepth msg).currentBucketTrades = s.currentBucketTrades ∧
    (s.handleDepth msg).tickSize = s.tickSize ∧
    (s.handleDepth msg).intervalId = s.intervalId := by
  by_cases h6 : msg.domType = 6
  · rw [handleDepth_reset s msg h6]; exact ⟨rfl, rfl, rfl⟩
  by_cases hA : msg.domType = 1 ∨ msg.domType = 3 ∨ msg.domType = 10
  · rw [handleDepth_ask s msg hA]
    by_cases hz : msg.volume = 0
    · rw [if_pos hz]; exact ⟨rfl, rfl, rfl⟩
    · rw [if_neg hz]; exact ⟨rfl, rfl, rfl⟩
  by_cases hB : msg.domType = 2 ∨ msg.domType = 4 ∨ msg.domType = 9
  · rw [handleDepth_bid s msg hB]
    by_cases hz : msg.volume = 0
    · rw [if_pos hz]; exact ⟨rfl, rfl, rfl⟩
    · rw [if_neg hz]; exact ⟨rfl, rfl, rfl⟩
  · rw [handleDepth_other s msg h6 hA hB]; exact ⟨rfl, rfl, rfl⟩

open MarketAggregator in
theorem bucket_emit_spec (cfg : Config) (now : ℤ) (s s' : MarketAggregator)
    (col : HeatmapColumn) (h : MarketAggregator.bucket cfg now s = (s', some col)) :
    col.trades = s.currentBucketTrades ∧ s'.currentBucketTrades = [] ∧
    s'.tickSize = s.tickSize := by
  rw [bucket_eq] at h
  by_cases hz : emittedMid s = 0
  · simp [hz] at h
  · simp only [hz, if_false] at h
    injection h with h1 h2
    injection h2 with h2
    subst h1
    subst h2
    exact ⟨rfl, rfl, rfl⟩

open MarketAggregator in
theorem bucket_noemit_spec (cfg : Config) (now : ℤ) (s s' : MarketAggregator)
    (h : MarketAggregator.bucket cfg now s = (s', none)) : s' = s := by
  rw [bucket_eq] at h
  by_cases hz : emittedMid s = 0
  · simp only [hz, if_true] at h
    injection h with h1 h2
    exact h1.symm
  · simp only [hz, if_false] at h
    injection h with h1 h2
    simp at h2

theorem runEvents_cons (cfg : Config) (s : MarketAggregator) (e : MarketEvent)
    (es : List MarketEvent) :
    runEvents cfg s (e :: es)
      = ((runEvents cfg (stepEvent cfg s e).1 es).1,
         (stepEvent cfg s e).2 ++ (runEvents cfg (stepEvent cfg s e).1 es).2) := rfl

open MarketAggregator in
/-- The conservation law behind C7: across any event sequence, the trades of
all emitted columns (in order) followed by what is left in the buffer are
exactly the starting buffer followed by all handled trades, in order. -/
theorem runEvents_trades (cfg : Config) (es : List MarketEvent) :
    ∀ s : MarketAggregator,
      ((runEvents cfg s es).2.map HeatmapColumn.trades).flatten
          ++ (runEvents cfg s es).1.currentBucketTrades
        = s.currentBucketTrades ++ eventTrades s.tickSize es := by
  induction es with
  | nil => intro s; simp [runEvents, eventTrades]
  | cons e es ih =>
    intro s
    cases e with
    | depth m =>
      have hstep : stepEvent cfg s (.depth m) = (s.handleDepth m, []) := rfl
      have hev : eventTrades s.tickSize (.depth m :: es) = eventTrades s.tickSize es := rfl
      rw [runEvents_cons, hstep, hev]
      simp only [List.nil_append]
      rw [ih (s.handleDepth m)]
      rw [(handleDepth_frame s m).1, (handleDepth_frame s m).2.1]
    | trade m =>
      have hstep : stepEvent cfg s (.trade m) = (s.handleTrade m, []) := rfl
      have hev : eventTrades s.tickSize (.trade m :: es)
          = tradeOfMsg s.tickSize m :: eventTrades s.tickSize es := rfl
      rw [runEvents_cons, hstep, hev]
      simp only [List.nil_append]
      rw [ih (s.handleTrade m)]
      have hbuf : (s.handleTrade m).currentBucketTrades
          = s.currentBucketTrades ++ [tradeOfMsg s.tickSize m] := rfl
      have hts : (s.handleTrade m).tickSize = s.tickSize := rfl
      rw [hbuf, hts, List.append_assoc]
      rfl
    | tick now =>
      have hev : eventTrades s.tickSize (.tick now :: es) = eventTrades s.tickSize es := rfl
      rcases hb : MarketAggregator.bucket cfg now s with ⟨s1, c⟩
      cases c with
      | none =>
        have hs1 : s1 = s := bucket_noemit_spec cfg now s s1 hb
        have hstep : stepEvent cfg s (.tick now) = (s1, []) := by
          simp [stepEvent, hb]
        rw [runEvents_cons, hstep, hev]
        simp only [List.nil_append]
        rw [ih s1, hs1]
      | some col =>
        have hspec := bucket_emit_spec cfg now s s1 col hb
        have hstep : stepEvent cfg s (.tick now) = (s1, [col]) := by
          simp [stepEvent, hb]
        rw [runEvents_cons, hstep, hev]
        rw [List.map_append, List.flatten_append]
        simp only [List.map_cons, List.map_nil, List.flatten_cons, List.flatten_nil,
          List.append_nil]
        rw [List.append_assoc, ih s1, hspec.1, hspec.2.2, hspec.2.1]
        simp

/-! ## C7 -/

open MarketAggregator in
/-- C7: across any event sequence the emitted columns' trade lists, in order,
followed by the residual buffer, are exactly the initial buffer followed by
every trade handled, in arrival order (so each emitted column carries exactly
the trades buffered since the previous emission); an emitting `bucket` copies
the pre-drain buffer into the column and empties the buffer; and a reset
(`domType` 6) empties both book sides while leaving the trade buffer alone. -/
theorem C7_trade_buffer_exactness (cfg : Config) :
    (∀ (s : MarketAggregator) (es : List MarketEvent),
      ((runEvents cfg s es).2.map HeatmapColumn.trades).flatten
          ++ (runEvents cfg s es).1.currentBucketTrades
        = s.currentBucketTrades ++ eventTrades s.tickSize es) ∧
    (∀ (now : ℤ) (s s' : MarketAggregator) (col : HeatmapColumn),
      MarketAggregator.bucket cfg now s = (s', some col) →
      col.trades = s.currentBucketTrades ∧ s'.currentBucketTrades = []) ∧
    (∀ (s : MarketAggregator) (msg : DepthMessage), msg.domType = 6 →
      (s.handleDepth msg).bids = [] ∧ (s.handleDepth msg).asks = [] ∧
      (s.handleDepth msg).currentBucketTrades = s.currentBucketTrades) := by
  refine ⟨fun s es => runEvents_trades cfg es s, ?_, ?_⟩
  · intro now s s' col h
    exact ⟨(bucket_emit_spec cfg now s s' col h).1, (bucket_emit_spec cfg now s s' col h).2.1⟩
  · intro s msg h6
    rw [handleDepth_reset s msg h6]
    exact ⟨rfl, rfl, rfl⟩

/-- Witness for C7: a concrete emission copies the single buffered trade and
clears the buffer, and a concrete reset clears both book sides while leaving
the buffer untouched. -/
theorem C7_witness :
    ∃ s' col, MarketAggregator.bucket ⟨100, 4⟩ 0 wC7 = (s', some col) ∧
      col.trades = wC7.currentBucketTrades ∧ s'.currentBucketTrades = [] ∧
      (wC7.handleDepth wC7reset).bids = [] ∧
      (wC7.handleDepth wC7reset).asks = [] ∧
      (wC7.handleDepth wC7reset).currentBucketTrades = wC7.currentBucketTrades := by
  refine ⟨_, _, rfl, ?_, ?_, ?_, ?_, ?_⟩
  · exact ((C7_trade_buffer_exactness ⟨100, 4⟩).2.1 0 wC7 _ _ rfl).1
  · exact ((C7_trade_buffer_exactness ⟨100, 4⟩).2.1 0 wC7 _ _ rfl).2
  · exact ((C7_trade_buffer_exactness ⟨100, 4⟩).2.2 wC7 wC7reset rfl).1
  · exact ((C7_trade_buffer_exactness ⟨100, 4⟩).2.2 wC7 wC7reset rfl).2.1
  · exact ((C7_trade_buffer_exactness ⟨100, 4⟩).2.2 wC7 wC7reset rfl).2.2

/-! ## Registry lemmas for C8 -/

theorem keyCount_mapSet_self {α β : Type} [BEq α] [LawfulBEq α]
    (m : List (α × β)) (k : α) (v : β) : keyCount (mapSet m k v) k = 1 := by
  rw [keyCount, mapSet, List.filter_append]
  have h1 : (m.filter (fun p => p.1 != k)).filter (fun p => p.1 == k) = [] := by
    rw [List.filter_eq_nil_iff]
    intro p hp
    have h2 := (List.mem_filter.mp hp).2
    simp at h2 ⊢
    exact h2
  rw [h1]
  simp

theorem halt_stopped (r : StreamRec) :
    r.halt.agg.intervalId = false ∧ r.halt.socketConnected = false :=
  ⟨rfl, rfl⟩

theorem retired_streamStart (oldId : ℕ) (st : ServerState)
    (sess cid : String) (ts : ℚ) (tok : String) (h : retired oldId st) :
    retired oldId (streamStart st sess cid ts tok) := by
  obtain ⟨hlt, hstop⟩ := h
  have hne : ¬ oldId = st.nextId := Nat.ne_of_lt hlt
  refine ⟨Nat.lt_succ_of_lt hlt, ?_⟩
  intro r hr
  simp only [streamStart] at hr
  rcases hs : mapGet st.streams sess with _ | oldId2 <;> simp only [hs] at hr
  · rw [mapGet_mapSet, if_neg hne] at hr
    exact hstop r hr
  · rcases hr2 : mapGet st.recs oldId2 with _ | r0 <;> simp only [hr2] at hr
    · rw [mapGet_mapSet, if_neg hne] at hr
      exact hstop r hr
    · rw [mapGet_mapSet, if_neg hne, mapGet_mapSet] at hr
      by_cases he : oldId = oldId2
      · rw [if_pos he] at hr
        cases Option.some.inj hr
        rfl
      · rw [if_neg he] at hr
        exact hstop r hr

theorem retired_streamStop (oldId : ℕ) (st : ServerState) (sess : String)
    (h : retired oldId st) : retired oldId (streamStop st sess) := by
  obtain ⟨hlt, hstop⟩ := h
  rw [streamStop]
  split
  · rename_i id2 heq
    split
    · rename_i r0 heq2
      refine ⟨hlt, ?_⟩
      intro r hr
      rw [mapGet_mapSet] at hr
      by_cases he : oldId = id2
      · rw [if_pos he] at hr
        cases Option.some.inj hr
        rfl
      · rw [if_neg he] at hr
        exact hstop r hr
    · exact ⟨hlt, hstop⟩
  · exact ⟨hlt, hstop⟩

theorem retired_timerFire (cfg : Config) (oldId : ℕ) (st : ServerState)
    (id : ℕ) (now : ℤ) (h : retired oldId st) :
    retired oldId (timerFire cfg st id now).1 ∧
      ∀ p ∈ (timerFire cfg st id now).2, p.1 ≠ oldId := by
  obtain ⟨hlt, hstop⟩ := h
  rw [timerFire]
  split
  · rename_i r heq
    split
    · rename_i hrun
      have hne : ¬ oldId = id := by
        intro he
        subst he
        rw [hstop r heq] at hrun
        exact Bool.false_ne_true hrun
      split
      · rename_i a col heq2
        refine ⟨⟨hlt, ?_⟩, ?_⟩
        · intro r1 hr1
          rw [mapGet_mapSet, if_neg hne] at hr1
          exact hstop r1 hr1
        · intro p hp
          rw [List.mem_singleton] at hp
          subst hp
          exact fun he => hne he.symm
      · rename_i a heq2
        refine ⟨⟨hlt, ?_⟩, by simp⟩
        intro r1 hr1
        rw [mapGet_mapSet, if_neg hne] at hr1
        exact hstop r1 hr1
    · exact ⟨⟨hlt, hstop⟩, by simp⟩
  · exact ⟨⟨hlt, hstop⟩, by simp⟩

theorem retired_deliverDepth (oldId : ℕ) (st : ServerState)
    (id : ℕ) (msg : DepthMessage) (h : retired oldId st) :
    retired oldId (deliverDepth st id msg) := by
  obtain ⟨hlt, hstop⟩ := h
  rw [deliverDepth]
  split
  · rename_i r heq
    split
    · refine ⟨hlt, ?_⟩
      intro r1 hr1
      rw [mapGet_mapSet] at hr1
      by_cases he : oldId = id
      · subst he
        rw [if_pos rfl] at hr1
        cases Option.some.inj hr1
        have hfr := (handleDepth_frame r.agg msg).2.2
        simpa [hfr] using hstop r heq
      · rw [if_neg he] at hr1
        exact hstop r1 hr1
    · exact ⟨hlt, hstop⟩
  · exact ⟨hlt, hstop⟩

theorem retired_deliverTrade (oldId : ℕ) (st : ServerState)
    (id : ℕ) (msg : TradeMessage) (h : retired oldId st) :
    retired oldId (deliverTrade st id msg) := by
  obtain ⟨hlt, hstop⟩ := h
  rw [deliverTrade]
  split
  · rename_i r heq
    split
    · refine ⟨hlt, ?_⟩
      intro r1 hr1
      rw [mapGet_mapSet] at hr1
      by_cases he : oldId = id
      · subst he
        rw [if_pos rfl] at hr1
        cases Option.some.inj hr1
        simpa using hstop r heq
      · rw [if_neg he] at hr1
        exact hstop r1 hr1
    · exact ⟨hlt, hstop⟩
  · exact ⟨hlt, hstop⟩

theorem retired_sysStep (cfg : Config) (oldId : ℕ) (st : ServerState) (e : SysEvent)
    (h : retired oldId st) :
    retired oldId (sysStep cfg st e).1 ∧ ∀ p ∈ (sysStep cfg st e).2, p.1 ≠ oldId := by
  cases e with
  | start sess cid ts tok =>
    exact ⟨retired_streamStart oldId st sess cid ts tok h, by simp [sysStep]⟩
  | stop sess => exact ⟨retired_streamStop oldId st sess h, by simp [sysStep]⟩
  | fire id now => exact retired_timerFire cfg oldId st id now h
  | depth id msg => exact ⟨retired_deliverDepth oldId st id msg h, by simp [sysStep]⟩
  | trade id msg => exact ⟨retired_deliverTrade oldId st id msg h, by simp [sysStep]⟩

/-- Once a stream identity is stopped and below the allocation counter, it
stays stopped through any further event sequence and never appears among the
emissions. -/
theorem retired_runSys (cfg : Config) (oldId : ℕ) (es : List SysEvent) :
    ∀ st : ServerState, retired oldId st →
      retired oldId (runSys cfg st es).1 ∧
        ∀ p ∈ (runSys cfg st es).2, p.1 ≠ oldId := by
  induction es with
  | nil => intro st h; exact ⟨h, by simp [runSys]⟩
  | cons e es ih =>
    intro st h
    have h1 := retired_sysStep cfg oldId st e h
    have h2 := ih (sysStep cfg st e).1 h1.1
    refine ⟨h2.1, ?_⟩
    intro p hp
    have hrw : runSys cfg st (e :: es)
        = ((runSys cfg (sysStep cfg st e).1 es).1,
           (sysStep cfg st e).2 ++ (runSys cfg (sysStep cfg st e).1 es).2) := rfl
    rw [hrw] at hp
    rcases List.mem_append.mp hp with hp | hp
    · exact h1.2 p hp
    · exact h2.2 p hp

/-! ## C8 -/

/-- C8: replacing a session's stream leaves exactly one registry entry for the
session (pointing at the fresh stream), the prior stream is left with its
socket disconnected and its bucket timer cleared, and across any further
event sequence the prior stream stays stopped and never emits a column. -/
theorem C8_stream_replacement (cfg : Config) (st : ServerState)
    (sessionId contractId : String) (tickSize : ℚ) (token : String) (oldId : ℕ)
    (hreg : mapGet st.streams sessionId = some oldId)
    (hlt : oldId < st.nextId) :
    keyCount (streamStart st sessionId contractId tickSize token).streams sessionId = 1 ∧
    mapGet (streamStart st sessionId contractId tickSize token).streams sessionId
      = some st.nextId ∧
    oldId ≠ st.nextId ∧
    (∀ r, mapGet (streamStart st sessionId contractId tickSize token).recs oldId = some r →
      r.agg.intervalId = false ∧ r.socketConnected = false) ∧
    (∀ es : List SysEvent,
      (∀ p ∈ (runSys cfg (streamStart st sessionId contractId tickSize token) es).2,
        p.1 ≠ oldId) ∧
      (∀ r, mapGet (runSys cfg (streamStart st sessionId contractId tickSize token) es).1.recs
          oldId = some r → r.agg.intervalId = false)) := by
  have hne : ¬ oldId = st.nextId := Nat.ne_of_lt hlt
  have hstopped : ∀ r,
      mapGet (streamStart st sessionId contractId tickSize token).recs oldId = some r →
      r.agg.intervalId = false ∧ r.socketConnected = false := by
    intro r hr
    simp only [streamStart, hreg] at hr
    rcases hr2 : mapGet st.recs oldId with _ | r0 <;> simp only [hr2] at hr
    · rw [mapGet_mapSet, if_neg hne, hr2] at hr
      cases hr
    · rw [mapGet_mapSet, if_neg hne, mapGet_mapSet, if_pos rfl] at hr
      cases Option.some.inj hr
      exact halt_stopped r0
  have hkey : keyCount (streamStart st sessionId contractId tickSize token).streams sessionId
      = 1 := by
    simp only [streamStart, hreg]
    rcases hr2 : mapGet st.recs oldId with _ | r0 <;>
      simp only [hr2] <;> exact keyCount_mapSet_self ..
  have hget : mapGet (streamStart st sessionId contractId tickSize token).streams sessionId
      = some st.nextId := by
    simp only [streamStart, hreg]
    rcases hr2 : mapGet st.recs oldId with _ | r0 <;>
      simp [hr2, mapGet_mapSet]
  have hret : retired oldId (streamStart st sessionId contractId tickSize token) := by
    refine ⟨?_, fun r hr => (hstopped r hr).1⟩
    have hnext : (streamStart st sessionId contractId tickSize token).nextId
        = st.nextId + 1 := rfl
    rw [hnext]
    exact Nat.lt_succ_of_lt hlt
  refine ⟨hkey, hget, hne, hstopped, ?_⟩
  intro es
  have h := retired_runSys cfg oldId es _ hret
  exact ⟨h.2, h.1.2⟩

/-- Witness for C8: replacing session "alice"'s running stream (identity 0) in
a concrete one-stream server state. -/
theorem C8_witness :
    keyCount (streamStart wC8st "alice" "ES" 1 "tok2").streams "alice" = 1 ∧
    mapGet (streamStart wC8st "alice" "ES" 1 "tok2").streams "alice" = some 1 ∧
    (0 : ℕ) ≠ 1 ∧
    (∀ r, mapGet (streamStart wC8st "alice" "ES" 1 "tok2").recs 0 = some r →
      r.agg.intervalId = false ∧ r.socketConnected = false) ∧
    (∀ es : List SysEvent,
      (∀ p ∈ (runSys ⟨100, 4⟩ (streamStart wC8st "alice" "ES" 1 "tok2") es).2, p.1 ≠ 0) ∧
      (∀ r, mapGet (runSys ⟨100, 4⟩ (streamStart wC8st "alice" "ES" 1 "tok2") es).1.recs 0
          = some r → r.agg.intervalId = false)) :=
  C8_stream_replacement ⟨100, 4⟩ wC8st "alice" "ES" 1 "tok2" 0 rfl (by decide)

/-! ## C9 -/

theorem refreshStream_frame (outcome : Option String) (r : StreamRec) :
    (refreshStream outcome r).agg = r.agg ∧
    (refreshStream outcome r).socketConnected = r.socketConnected ∧
    (refreshStream outcome r).contractId = r.contractId := by
  cases outcome <;> exact ⟨rfl, rfl, rfl⟩

theorem refreshRecs_frame (outcome : String → Option String) (l : List (String × ℕ)) :
    ∀ recs : List (ℕ × StreamRec), ∀ (id : ℕ) (r1 : StreamRec),
      mapGet (refreshRecs outcome l recs) id = some r1 →
      ∃ r0, mapGet recs id = some r0 ∧ r1.agg = r0.agg ∧
        r1.socketConnected = r0.socketConnected ∧ r1.contractId = r0.contractId := by
  induction l with
  | nil => intro recs id r1 h; exact ⟨r1, h, rfl, rfl, rfl⟩
  | cons p rest ih =>
    intro recs id r1 h
    have hstep : refreshRecs outcome (p :: rest) recs
        = refreshRecs outcome rest
            (match mapGet recs p.2 with
              | some r => mapSet recs p.2 (refreshStream (outcome p.1) r)
              | none => recs) := rfl
    rw [hstep] at h
    rcases hg : mapGet recs p.2 with _ | r <;> simp only [hg] at h
    · exact ih recs id r1 h
    · obtain ⟨r0, hr0, hfr⟩ := ih _ id r1 h
      rw [mapGet_mapSet] at hr0
      by_cases he : id = p.2
      · rw [if_pos he] at hr0
        cases Option.some.inj hr0
        obtain ⟨h1, h2, h3⟩ := refreshStream_frame (outcome p.1) r
        refine ⟨r, ?_, hfr.1.trans h1, hfr.2.1.trans h2, hfr.2.2.trans h3⟩
        rw [he]
        exact hg
      · rw [if_neg he] at hr0
        exact ⟨r0, hr0, hfr⟩

/-- C9: a token-refresh cycle swaps only stored credentials — a successful
per-stream validation replaces the stream's token in place (connection flag
untouched, so no reconnect is forced), a failed one changes nothing, and
every stream surviving the cycle keeps its aggregator (book, trade buffer,
`lastMidTick`, timer flag) and socket-connection state identical. -/
theorem C9_refresh_frame (outcome : String → Option String) (st : ServerState)
    (r : StreamRec) (tok : String) :
    (refreshStream (some tok) r).token = tok ∧
    (refreshStream (some tok) r).agg = r.agg ∧
    (refreshStream (some tok) r).socketConnected = r.socketConnected ∧
    refreshStream none r = r ∧
    (refreshCycle outcome st).streams = st.streams ∧
    (refreshCycle outcome st).nextId = st.nextId ∧
    (∀ (id : ℕ) (r1 : StreamRec),
      mapGet (refreshCycle outcome st).recs id = some r1 →
      ∃ r0, mapGet st.recs id = some r0 ∧ r1.agg = r0.agg ∧
        r1.socketConnected = r0.socketConnected) := by
  refine ⟨rfl, rfl, rfl, rfl, rfl, rfl, ?_⟩
  intro id r1 h
  obtain ⟨r0, h0, h1, h2, h3⟩ := refreshRecs_frame outcome st.streams st.recs id r1 h
  exact ⟨r0, h0, h1, h2⟩

/-- Witness for C9: a concrete refresh cycle over one stream replaces the
token with "new" while the registry, the aggregator and the connection flag
survive unchanged. -/
theorem C9_witness :
    (refreshCycle wC9outcome wC9st).streams = wC9st.streams ∧
    (refreshCycle wC9outcome wC9st).nextId = wC9st.nextId ∧
    (refreshStream (some "new") wC9rec).token = "new" ∧
    ∃ r0, mapGet wC9st.recs 0 = some r0 ∧
      (refreshStream (some "new") wC9rec).agg = r0.agg ∧
      (refreshStream (some "new") wC9rec).socketConnected = r0.socketConnected := by
  have h := C9_refresh_frame wC9outcome wC9st wC9rec "new"
  have hc : mapGet (refreshCycle wC9outcome wC9st).recs 0
      = some (refreshStream (some "new") wC9rec) := rfl
  obtain ⟨r0, h0, h1, h2⟩ := h.2.2.2.2.2.2 0 _ hc
  exact ⟨h.2.2.2.2.1, h.2.2.2.2.2.1, h.1, r0, h0, h1, h2⟩

end TopstepHeatmap
